import Mathlib

/-!
Verification development for neddns (src/neddns.go), a small authoritative
DNS server whose zones are loaded from a remote object store.

The Go program is shallowly embedded below:

* resource records, zones and questions become Lean structures
  (`RR`, `Zone`, `Question`);
* the per-zone request handler `zoneHandler` becomes a pure function from
  the request's question list to the optional list of answer records
  (`none` models "the handler returned without writing a reply"); the
  network call `c.flattenCNAME` it performs is abstracted by a function
  argument `flatten : RR → Option (List RR)` (`some` = the flattener
  returned a record list, `none` = it returned an error, which the
  handler logs and skips);
* `flattenCNAME` itself becomes a function of the upstream resolver's
  response, returning a `GoResult` so that the nil-dereference the Go code
  can perform is an explicit `panic` outcome;
* the reload path `getZones` / `loadZones` becomes explicit state passing
  over an association-list store of zones, with `LoadResult.fatal`
  modelling `log.Fatalf` (process termination), carrying the store state
  at the moment of termination;
* S3 timestamps become `Int` seconds; `time.Minute` is 60.
-/

namespace NedDNS

/-! ### DNS wire constants (values of the miekg/dns library) -/

def typeA : Nat := 1

def typeCNAME : Nat := 5

def typeTXT : Nat := 16

def typeANY : Nat := 255

def classINET : Nat := 1

def rcodeSuccess : Nat := 0

def rcodeNameError : Nat := 3

/-- `var version = "0.1.2015111500"` in neddns.go. -/
def version : String := "0.1.2015111500"

/-! ### Record model -/

/-- The header of a resource record (`dns.RR_Header`): owner name, record
type, class and TTL. -/
structure RRHeader where
  name : String
  rrtype : Nat
  rrclass : Nat
  ttl : Nat
  deriving Repr, DecidableEq

/-- A resource record: header plus its type-specific payload rendered as a
string (the address of an A record, the target of a CNAME, the text of a
TXT). -/
structure RR where
  hdr : RRHeader
  rdata : String
  deriving Repr, DecidableEq

/-- A question of an incoming message: name, qtype, qclass. -/
structure Question where
  qname : String
  qtype : Nat
  qclass : Nat
  deriving Repr, DecidableEq

/-- `type zone struct \x7b name string; rrs []dns.RR \x7d`. -/
structure Zone where
  name : String
  rrs : List RR
  deriving Repr, DecidableEq

/-- `dns.Fqdn`: append a trailing dot unless the last byte already is one
(`IsFqdn` checks `s[len(s)-1] == '.'`; the empty string is not fqdn). -/
def fqdn (s : String) : String := if s.back = '.' then s else s ++ "."

/-! ### Query engine (`zoneHandler`, neddns.go lines 210-261) -/

/-- One iteration of the `for _, record := range z.rrs` loop of
`zoneHandler`, threading the accumulated `m.Answer`.  Mirrors the Go
control flow exactly: records whose name differs from the question name
are skipped; for an A question meeting a CNAME record, the record is
flattened when the question name is the zone apex (`dns.Fqdn(z.name)`) and
otherwise falls through to the final append; any other record is appended
iff its type equals the question type or the question type is ANY. -/
def handleRecord (z : Zone) (flatten : RR → Option (List RR)) (q : Question)
    (acc : List RR) (record : RR) : List RR :=
  let h := record.hdr
  if q.qname ≠ h.name then acc
  else if q.qtype = typeA ∧ h.rrtype = typeCNAME then
    if q.qname = fqdn z.name then
      match flatten record with
      | none => acc
      | some flat => acc ++ flat
    else acc ++ [record]
  else if q.qtype ≠ h.rrtype ∧ q.qtype ≠ typeANY then acc
  else acc ++ [record]

/-- The answer list accumulated by `zoneHandler`'s record loop. -/
def zoneAnswers (z : Zone) (flatten : RR → Option (List RR)) (q : Question) :
    List RR :=
  z.rrs.foldl (handleRecord z flatten q) []

/-- `zoneHandler`: returns the `m.Answer` of the written reply, or `none`
when the handler returns without writing one (question count ≠ 1, or a
question class other than INET). -/
def zoneHandler (z : Zone) (flatten : RR → Option (List RR))
    (questions : List Question) : Option (List RR) :=
  match questions with
  | [q] =>
    if q.qclass ≠ classINET then none
    else some (zoneAnswers z flatten q)
  | _ => none

/-! ### Helper reformulation of the record loop

`handleRecord acc r = acc ++ contrib r`, so the whole loop is the
concatenation of the per-record contributions. -/

/-- The records a single zone record contributes to the answer. -/
def contrib (z : Zone) (flatten : RR → Option (List RR)) (q : Question)
    (record : RR) : List RR :=
  let h := record.hdr
  if q.qname ≠ h.name then []
  else if q.qtype = typeA ∧ h.rrtype = typeCNAME then
    if q.qname = fqdn z.name then (flatten record).getD []
    else [record]
  else if q.qtype ≠ h.rrtype ∧ q.qtype ≠ typeANY then []
  else [record]

theorem handleRecord_eq_append (z : Zone) (f : RR → Option (List RR))
    (q : Question) (acc : List RR) (r : RR) :
    handleRecord z f q acc r = acc ++ contrib z f q r := by
  rcases hf : f r with _ | flat <;>
    simp only [handleRecord, contrib, hf] <;> split_ifs <;> simp

theorem foldl_handleRecord (z : Zone) (f : RR → Option (List RR))
    (q : Question) :
    ∀ (l : List RR) (acc : List RR),
      l.foldl (handleRecord z f q) acc = acc ++ (l.map (contrib z f q)).flatten
  | [], acc => by simp
  | r :: rest, acc => by
    simp only [List.foldl_cons, List.map_cons, List.flatten_cons,
      handleRecord_eq_append, foldl_handleRecord z f q rest, List.append_assoc]

theorem zoneAnswers_eq_flatten (z : Zone) (f : RR → Option (List RR))
    (q : Question) :
    zoneAnswers z f q = (z.rrs.map (contrib z f q)).flatten := by
  simp [zoneAnswers, foldl_handleRecord]

/-! ### CNAME flattener (`flattenCNAME`, neddns.go lines 263-286) -/

/-- The upstream resolver's reply to the A query for the CNAME target:
response code plus answer section. -/
structure UpstreamMsg where
  rcode : Nat
  answer : List RR
  deriving Repr, DecidableEq

/-- Outcome of a Go function returning `(value, error)`, with a third case
for a runtime panic (e.g. a nil-pointer dereference). -/
inductive GoResult (α : Type) where
  | ok (a : α)
  | err (e : String)
  | panic (msg : String)
  deriving Repr, DecidableEq

/-- `flattenCNAME`, as a function of the outcome of
`d.Exchange(m, c.resolver)` (`Except.error` = transport error, i.e. the
upstream is unreachable).  The Go source, after `record, _, err :=
d.Exchange(...)`, first returns `nil, err` when `err != nil`; afterwards
`err` is necessarily nil, yet on `record.Rcode == dns.RcodeNameError ||
record.Rcode != dns.RcodeSuccess` it evaluates
`fmt.Errorf("Record error code %s: %s", record.Rcode, err.Error())` —
`err.Error()` with `err == nil`, a nil-pointer dereference: that branch is
therefore a `panic`, not a returned error.  On success it appends, for
every A record of the upstream answer in order, a fresh A record named
after the CNAME record's own name with class INET and TTL 300, keeping
only the address. -/
def flattenCNAME (exchange : Except String UpstreamMsg) (cname : RR) :
    GoResult (List RR) :=
  match exchange with
  | .error e => .err e
  | .ok record =>
    if record.rcode = rcodeNameError ∨ record.rcode ≠ rcodeSuccess then
      .panic "runtime error: invalid memory address or nil pointer dereference"
    else
      .ok (record.answer.filterMap (fun a =>
        if a.hdr.rrtype = typeA then
          some ⟨⟨cname.hdr.name, typeA, classINET, 300⟩, a.rdata⟩
        else none))

/-! ### Version handler (`registerVersionHandler`, neddns.go lines 288-301) -/

/-- The handler registered for the reserved zone name ".", as a function of
the request's question list, returning the `(m.Answer, m.Extra)` of the
written reply.  The Go code reads `req.Question[0]` without checking the
length of the question slice, so a request with no questions hits an
out-of-bounds index (a runtime panic) before any reply is written:
`none` models that outcome. -/
def versionHandler (questions : List Question) : Option (List RR × List RR) :=
  match questions with
  | [] => none
  | q :: _ =>
    if q.qname = "." ∧ q.qtype = typeTXT then
      some ([⟨⟨q.qname, typeTXT, classINET, 0⟩, "v" ++ version⟩],
            [⟨⟨q.qname, typeTXT, classINET, 0⟩, "NedDNS"⟩])
    else
      some ([], [])

/-! ### Reload path (`getZones` / `loadZones`, neddns.go lines 165-208)

Timestamps are `Int` seconds; `time.Minute` is 60.  The `zoneGetter`
interface becomes a structure of the outcomes of its two calls
(`ioutil.ReadAll` failures are folded into `getZone`'s error case). -/

/-- `type zoneFile struct \x7b Key string; LastModified time.Time \x7d`. -/
structure ZoneFile where
  key : String
  lastModified : Int
  deriving Repr, DecidableEq

/-- The `zoneGetter` interface: outcome of `ListZones()` and of
`GetZone(key)` followed by `ioutil.ReadAll`. -/
structure Getter where
  listZones : Except String (List ZoneFile)
  getZone : String → Except String String

/-- `strings.TrimPrefix(s, p)`: drop `p` from the front of `s` when it is
a prefix, otherwise return `s` unchanged (stated on the character lists;
zone keys are ASCII, where Go's byte view and the character view agree). -/
def trimPfx (s p : String) : String :=
  if s.data.take p.data.length = p.data then ⟨s.data.drop p.data.length⟩ else s

/-- The two `continue` conditions of `getZones`' listing loop, negated: a
listed object is kept (fetched and loaded) iff its key differs from the
configured prefix and its `LastModified` is not strictly before
`lastUpdate - 1 minute`. -/
def keepFile (pfx : String) (lastUpdate : Int) (k : ZoneFile) : Bool :=
  !(k.key == pfx) && !(k.lastModified < lastUpdate - 60)

/-- The body of `getZones`' loop over the listing: skip the prefix marker
and stale objects, fetch each remaining object, and record
`(key with prefix stripped, content)` in listing order; the first fetch
failure aborts the whole cycle with that error. -/
def fetchFiles (pfx : String) (lastUpdate : Int) (g : Getter) :
    List ZoneFile → Except String (List (String × String))
  | [] => .ok []
  | k :: rest =>
    if k.key == pfx then fetchFiles pfx lastUpdate g rest
    else if k.lastModified < lastUpdate - 60 then fetchFiles pfx lastUpdate g rest
    else
      match g.getZone k.key with
      | .error e => .error e
      | .ok content =>
        match fetchFiles pfx lastUpdate g rest with
        | .error e => .error e
        | .ok zs => .ok ((trimPfx k.key pfx, content) :: zs)

/-- `getZones`: list the remote objects, fetch the kept ones, and on full
success return the name-to-content mapping together with the advanced
watermark (`c.lastUpdate = time.Now()`, here the parameter `now`). -/
def getZones (pfx : String) (lastUpdate : Int) (now : Int) (g : Getter) :
    Except String (List (String × String) × Int) :=
  match g.listZones with
  | .error e => .error e
  | .ok files =>
    match fetchFiles pfx lastUpdate g files with
    | .error e => .error e
    | .ok zs => .ok (zs, now)

/-- The store of registered per-zone handlers (`dns.HandleFunc`), as an
association list from zone name to the zone value the handler closes
over. -/
abbrev Store := List (String × Zone)

/-- `dns.HandleFunc(n, ...)`: replace the entry for `n` when present,
otherwise add one. -/
def upsert : Store → String → Zone → Store
  | [], n, z => [(n, z)]
  | (m, w) :: rest, n, z =>
    if m = n then (n, z) :: rest else (m, w) :: upsert rest n z

/-- Outcome of `loadZones`: either the updated store, or `log.Fatalf`
(process termination) carrying the store state at the moment of
termination. -/
inductive LoadResult where
  | ok (store : Store)
  | fatal (msg : String) (store : Store)
  deriving Repr, DecidableEq

/-- The external zone-text parser (`dns.ParseZone`) for one zone, as an
oracle from origin name and raw text to the records parsed before the
stream ends or errors, plus the error token if one occurred. -/
abbrev ParseOracle := String → String → List RR × Option String

/-- `loadZones`: for each zone of the batch in order, stream-parse its
text; the first parse error is `log.Fatalf` (no handler is registered for
that zone, and the records parsed before the error are discarded with it);
on clean parses register the zone's handler, replacing any prior one. -/
def loadZones (parse : ParseOracle) (store : Store) :
    List (String × String) → LoadResult
  | [] => .ok store
  | (n, f) :: rest =>
    match (parse n f).2 with
    | some e => .fatal e store
    | none => loadZones parse (upsert store n ⟨n, (parse n f).1⟩) rest

/-- One iteration of the update goroutine of `main` (neddns.go lines
115-138): fetch the changed zones, `log.Fatal` on any fetch error, and
reload the fetched zones (if any); a parse error inside `loadZones` is
itself fatal. -/
def reloadCycle (parse : ParseOracle) (pfx : String) (lastUpdate now : Int)
    (g : Getter) (store : Store) : LoadResult :=
  match getZones pfx lastUpdate now g with
  | .error e => .fatal e store
  | .ok (zs, _) => if zs.length > 0 then loadZones parse store zs else .ok store

/-- `s3getter.ListZones` (neddns.go lines 386-406): listing an empty
bucket/prefix is an error ("Zone directory empty" / "No zones found"),
otherwise the objects are returned. -/
def s3ListZones (objects : List ZoneFile) : Except String (List ZoneFile) :=
  if objects.length < 1 then .error "No zones found" else .ok objects

/-- Outcome of process startup. -/
inductive StartupResult where
  | fatal (msg : String)
  | serving (store : Store)
  deriving Repr, DecidableEq

/-- The startup sequence of `main` (neddns.go lines 94-112): fetch the
full catalog with the watermark initialised to the epoch
(`c.lastUpdate = time.Unix(0, 0)` in `parseArgs`), `log.Fatal` on any
fetch or load error, then start serving with whatever store the load
produced.  `objects` is the remote catalog behind `s3getter.ListZones`;
`fetchContent` is the content fetch behind `GetZone`. -/
def startup (parse : ParseOracle) (pfx : String) (now : Int)
    (objects : List ZoneFile) (fetchContent : String → Except String String) :
    StartupResult :=
  match getZones pfx 0 now ⟨s3ListZones objects, fetchContent⟩ with
  | .error e => .fatal e
  | .ok (zs, _) =>
    match loadZones parse [] zs with
    | .fatal e _ => .fatal e
    | .ok store => .serving store

/-! ### Generic list helpers -/

theorem flatten_map_ite_flatMap {α β : Type} (p : α → Bool) (g : α → List β) :
    ∀ l : List α,
      (l.map (fun a => if p a then g a else [])).flatten = (l.filter p).flatMap g
  | [] => rfl
  | a :: rest => by
    by_cases h : p a <;>
      simp [flatten_map_ite_flatMap p g rest, h, List.filter_cons]

theorem flatten_map_ite {α : Type} (p : α → Bool) :
    ∀ l : List α, (l.map (fun a => if p a then [a] else [])).flatten = l.filter p
  | l => by
    rw [flatten_map_ite_flatMap p (fun a => [a]) l]
    simp

theorem filterMap_ite {α β : Type} (p : α → Prop) [DecidablePred p] (f : α → β) :
    ∀ l : List α,
      (l.filterMap fun a => if p a then some (f a) else none) =
        (l.filter fun a => decide (p a)).map f
  | [] => rfl
  | a :: rest => by
    by_cases h : p a <;>
      simp [List.filterMap_cons, List.filter_cons, h, filterMap_ite p f rest]

/-! ### Spec-side comparison definitions -/

/-- Modelled from the spec's words for comparison with the code: the
records "whose name equals the question name" and whose "record type
equals question type, or question type is ANY", in stored order. -/
def specTypeMatchAnswers (z : Zone) (q : Question) : List RR :=
  z.rrs.filter (fun r =>
    r.hdr.name == q.qname && (r.hdr.rrtype == q.qtype || q.qtype == typeANY))

/-- A record on which `zoneHandler` invokes the CNAME flattener when
answering `q`: the record matches the question name, the question is an A
question, the record is a CNAME, and the question name is the zone's own
apex name. -/
def triggersApexFlatten (z : Zone) (q : Question) (r : RR) : Bool :=
  q.qname == r.hdr.name && q.qtype == typeA && r.hdr.rrtype == typeCNAME &&
    q.qname == fqdn z.name

/-- The record filter of the amended claim C1: name matches, and the type
matches, or the question type is ANY, or the record is a CNAME met by an A
question (apex CNAMEs being flattened is excluded by hypothesis where this
is used). -/
def amendedMatch (q : Question) (r : RR) : Bool :=
  q.qname == r.hdr.name &&
    (q.qtype == r.hdr.rrtype || q.qtype == typeANY ||
      (q.qtype == typeA && r.hdr.rrtype == typeCNAME))

theorem contrib_no_trigger (z : Zone) (f : RR → Option (List RR))
    (q : Question) (r : RR) (h : triggersApexFlatten z q r = false) :
    contrib z f q r = if amendedMatch q r then [r] else [] := by
  by_cases hn : q.qname = r.hdr.name <;>
    by_cases hA : q.qtype = typeA <;>
      by_cases hC : r.hdr.rrtype = typeCNAME <;>
        by_cases hty : q.qtype = r.hdr.rrtype <;>
          by_cases hany : q.qtype = typeANY <;>
            simp_all [contrib, triggersApexFlatten, amendedMatch, typeA,
              typeCNAME, typeANY]

theorem flatten_contrib_no_trigger (z : Zone) (f : RR → Option (List RR))
    (q : Question) :
    ∀ l : List RR, (∀ r ∈ l, triggersApexFlatten z q r = false) →
      (l.map (contrib z f q)).flatten = l.filter (amendedMatch q)
  | [], _ => rfl
  | r :: rest, h => by
    have hr := contrib_no_trigger z f q r (h r (List.mem_cons_self r rest))
    have hrest := flatten_contrib_no_trigger z f q rest
      (fun x hx => h x (List.mem_cons_of_mem r hx))
    rw [List.map_cons, List.flatten_cons, hr, hrest, List.filter_cons]
    by_cases hp : amendedMatch q r <;> simp [hp]

/-! ### Claim C1 -/

/-- A CNAME record at `www.abc.com.`, i.e. not at the apex of zone
`abc.com`. -/
def wwwCname : RR := ⟨⟨"www.abc.com.", typeCNAME, classINET, 300⟩, "abc.com."⟩

/-- The apex A record of the `abc.com` test zone. -/
def abcApexA : RR := ⟨⟨"abc.com.", typeA, classINET, 300⟩, "127.0.0.1"⟩

/-- The apex MX record of the `abc.com` test zone (type MX = 15). -/
def abcMX : RR := ⟨⟨"abc.com.", 15, classINET, 86400⟩, "10 mail.abc.com."⟩

/-- A zone shaped like the repository's `abc.com` test zone: an apex A
record and MX record, and a `www` CNAME. -/
def abcZone : Zone := ⟨"abc.com", [abcApexA, abcMX, wwwCname]⟩

/-- An A question for the non-apex name `www.abc.com.`. -/
def qWwwA : Question := ⟨"www.abc.com.", typeA, classINET⟩

/-- C1, counterexample: for the A question `www.abc.com.` against zone
`abc.com`, no apex-CNAME flattening is triggered, yet the handler's answer
is the literal `www` CNAME record, while the claim's "records whose type
equals the question type or the question type is ANY" is the empty list:
the answer is not that set. -/
theorem c1_counterexample :
    (∀ r ∈ abcZone.rrs, triggersApexFlatten abcZone qWwwA r = false) ∧
    zoneHandler abcZone (fun _ => none) [qWwwA] = some [wwwCname] ∧
    specTypeMatchAnswers abcZone qWwwA = [] := by
  refine ⟨by decide, by decide, by decide⟩

/-- C1 (amended): for every well-formed single-question INET query on
which no apex-CNAME flattening is triggered, the answer contains exactly
those of the zone's records, in stored order, whose name equals the
question name and whose type equals the question type, or where the
question type is ANY, or where the question type is A and the record is a
CNAME (returned literally). -/
theorem c1_answer_is_amended_filter (z : Zone) (f : RR → Option (List RR))
    (q : Question) (hclass : q.qclass = classINET)
    (htrig : ∀ r ∈ z.rrs, triggersApexFlatten z q r = false) :
    zoneHandler z f [q] = some (z.rrs.filter (amendedMatch q)) := by
  simp only [zoneHandler]
  rw [if_neg (by simp [hclass]), zoneAnswers_eq_flatten,
    flatten_contrib_no_trigger z f q z.rrs htrig]

/-- Witness for C1 (amended), the spec's own example: zone `abc.com` with
an A record `127.0.0.1` at its apex; the A query for `abc.com.` returns
exactly that record. -/
theorem c1_answer_is_amended_filter_witness :
    zoneHandler abcZone (fun _ => none) [⟨"abc.com.", typeA, classINET⟩] =
      some [abcApexA] := by
  have h := c1_answer_is_amended_filter abcZone (fun _ => none)
    ⟨"abc.com.", typeA, classINET⟩ rfl (by decide)
  rw [h]
  rfl

/-! ### Claims C2 and C8 -/

theorem zoneHandler_single (z : Zone) (f : RR → Option (List RR))
    (q : Question) (h : q.qclass = classINET) :
    zoneHandler z f [q] = some (zoneAnswers z f q) := by
  simp [zoneHandler, h]

theorem contrib_apex_A (z : Zone) (f : RR → Option (List RR)) (qn : String)
    (hapex : qn = fqdn z.name) (r : RR) :
    contrib z f ⟨qn, typeA, classINET⟩ r =
      if qn == r.hdr.name then
        (if r.hdr.rrtype = typeCNAME then (f r).getD []
         else if r.hdr.rrtype = typeA then [r] else [])
      else [] := by
  by_cases hn : qn = r.hdr.name <;>
    by_cases hC : r.hdr.rrtype = typeCNAME <;>
      by_cases hA2 : r.hdr.rrtype = typeA <;>
        simp_all [contrib, typeA, typeCNAME, typeANY, hapex] <;> omega

theorem contrib_cname_query (z : Zone) (f : RR → Option (List RR))
    (qn : String) (r : RR) :
    contrib z f ⟨qn, typeCNAME, classINET⟩ r =
      if qn == r.hdr.name && r.hdr.rrtype == typeCNAME then [r] else [] := by
  by_cases hn : qn = r.hdr.name <;>
    by_cases hC : r.hdr.rrtype = typeCNAME <;>
      simp_all [contrib, typeA, typeCNAME, typeANY] <;> omega

theorem zoneAnswers_apex_A (z : Zone) (f : RR → Option (List RR))
    (qn : String) (hapex : qn = fqdn z.name) :
    zoneAnswers z f ⟨qn, typeA, classINET⟩ =
      (z.rrs.filter (fun r => qn == r.hdr.name)).flatMap (fun r =>
        if r.hdr.rrtype = typeCNAME then (f r).getD []
        else if r.hdr.rrtype = typeA then [r] else []) := by
  rw [zoneAnswers_eq_flatten]
  have hc : contrib z f ⟨qn, typeA, classINET⟩ = fun r =>
      if qn == r.hdr.name then
        (if r.hdr.rrtype = typeCNAME then (f r).getD []
         else if r.hdr.rrtype = typeA then [r] else [])
      else [] :=
    funext (contrib_apex_A z f qn hapex)
  rw [hc, flatten_map_ite_flatMap]

theorem mem_zoneAnswers_apex_A (z : Zone) (f : RR → Option (List RR))
    (qn : String) (hapex : qn = fqdn z.name)
    (hf : ∀ (r : RR) (l : List RR) (o : RR), f r = some l → o ∈ l →
      o.hdr.rrtype = typeA)
    (o : RR) (ho : o ∈ zoneAnswers z f ⟨qn, typeA, classINET⟩) :
    o.hdr.rrtype = typeA := by
  rw [zoneAnswers_apex_A z f qn hapex] at ho
  obtain ⟨r, hr, hor⟩ := List.mem_flatMap.mp ho
  by_cases hC : r.hdr.rrtype = typeCNAME
  · rw [if_pos hC] at hor
    cases hfr : f r with
    | none => rw [hfr] at hor; simp at hor
    | some l => rw [hfr] at hor; exact hf r l o hfr hor
  · rw [if_neg hC] at hor
    by_cases hA2 : r.hdr.rrtype = typeA
    · rw [if_pos hA2] at hor
      simp only [List.mem_singleton] at hor
      subst hor
      exact hA2
    · rw [if_neg hA2] at hor
      simp at hor

/-- C2: for an A query whose name is the zone apex, every CNAME record at
the apex contributes exactly the flattener's synthesized records to the
answer (the flattener `f` abstracts `c.flattenCNAME`: `some` = its record
list, `none` = its error, logged and skipped), and no CNAME-typed record —
in particular no literal apex CNAME — ever appears in that answer, while a
CNAME-type query for the apex returns the literal CNAME records
unflattened, untouched by the flattener. -/
theorem c2_apex_cname_flattening (z : Zone) (f : RR → Option (List RR))
    (qn : String) (hapex : qn = fqdn z.name)
    (hf : ∀ (r : RR) (l : List RR) (o : RR), f r = some l → o ∈ l →
      o.hdr.rrtype = typeA) :
    (zoneHandler z f [⟨qn, typeA, classINET⟩] =
      some ((z.rrs.filter (fun r => qn == r.hdr.name)).flatMap (fun r =>
        if r.hdr.rrtype = typeCNAME then (f r).getD []
        else if r.hdr.rrtype = typeA then [r] else []))) ∧
    (∀ r ∈ z.rrs, r.hdr.rrtype = typeCNAME →
      r ∉ zoneAnswers z f ⟨qn, typeA, classINET⟩) ∧
    (zoneHandler z f [⟨qn, typeCNAME, classINET⟩] =
      some (z.rrs.filter (fun r => qn == r.hdr.name &&
        r.hdr.rrtype == typeCNAME))) := by
  refine ⟨?_, ?_, ?_⟩
  · rw [zoneHandler_single z f _ rfl, zoneAnswers_apex_A z f qn hapex]
  · intro r _ hC hmem
    have := mem_zoneAnswers_apex_A z f qn hapex hf r hmem
    rw [hC] at this
    exact absurd this (by decide)
  · rw [zoneHandler_single z f _ rfl, zoneAnswers_eq_flatten]
    have hc : contrib z f ⟨qn, typeCNAME, classINET⟩ = fun r =>
        if qn == r.hdr.name && r.hdr.rrtype == typeCNAME then [r] else [] :=
      funext (contrib_cname_query z f qn)
    rw [hc, flatten_map_ite]

/-- The apex CNAME record of the `flat.com` test zone, target `def.com.`. -/
def flatCname : RR := ⟨⟨"flat.com.", typeCNAME, classINET, 300⟩, "def.com."⟩

/-- The non-apex `www` CNAME record of the `flat.com` test zone. -/
def wwwFlatCname : RR :=
  ⟨⟨"www.flat.com.", typeCNAME, classINET, 300⟩, "flat.com."⟩

/-- A zone shaped like the repository's `flat.com` test zone: a CNAME at
the apex and a `www` CNAME. -/
def flatZone : Zone := ⟨"flat.com", [flatCname, wwwFlatCname]⟩

/-- The A record the flattener synthesizes for `flat.com.` when `def.com`
resolves upstream to `127.0.0.2`. -/
def flatA : RR := ⟨⟨"flat.com.", typeA, classINET, 300⟩, "127.0.0.2"⟩

/-- A flattener outcome: every invocation succeeds with `[flatA]`. -/
def flatF : RR → Option (List RR) := fun _ => some [flatA]

/-- Witness for C2, the spec's own example: `flat.com` whose apex is a
CNAME to `def.com` resolving to `127.0.0.2`; the A query returns the
synthesized record only, the CNAME query the literal record only. -/
theorem c2_apex_cname_flattening_witness :
    zoneHandler flatZone flatF [⟨"flat.com.", typeA, classINET⟩] =
      some [flatA] ∧
    zoneHandler flatZone flatF [⟨"flat.com.", typeCNAME, classINET⟩] =
      some [flatCname] := by
  have hf : ∀ (r : RR) (l : List RR) (o : RR), flatF r = some l → o ∈ l →
      o.hdr.rrtype = typeA := by
    intro r l o hl ho
    injection hl with h
    subst h
    simp only [List.mem_singleton] at ho
    subst ho
    rfl
  have h := c2_apex_cname_flattening flatZone flatF "flat.com." (by decide) hf
  exact ⟨by rw [h.1]; rfl, by rw [h.2.2]; rfl⟩

theorem contrib_oracle_indep (z : Zone) (f g : RR → Option (List RR))
    (q : Question) (hnon : q.qname ≠ fqdn z.name) (r : RR) :
    contrib z f q r = contrib z g q r := by
  unfold contrib
  split_ifs <;> first | rfl | exact absurd (by assumption) hnon

theorem contrib_nonapex_cname (z : Zone) (f : RR → Option (List RR))
    (q : Question) (r : RR) (hA : q.qtype = typeA)
    (hn : r.hdr.name = q.qname) (hC : r.hdr.rrtype = typeCNAME)
    (hnon : q.qname ≠ fqdn z.name) :
    contrib z f q r = [r] := by
  simp [contrib, hA, hn, hC, hnon]

/-- C8: for an A query whose name is not the zone apex, the handler writes
an answer in which every CNAME record at the question name appears
literally, and the answer does not depend on the CNAME flattener at all
(flattening is never applied off the apex). -/
theorem c8_nonapex_cname_literal (z : Zone) (f g : RR → Option (List RR))
    (q : Question) (hA : q.qtype = typeA) (hclass : q.qclass = classINET)
    (hnon : q.qname ≠ fqdn z.name) :
    (zoneHandler z f [q] = some (zoneAnswers z f q)) ∧
    (∀ r ∈ z.rrs, r.hdr.name = q.qname → r.hdr.rrtype = typeCNAME →
      r ∈ zoneAnswers z f q) ∧
    zoneAnswers z f q = zoneAnswers z g q := by
  refine ⟨zoneHandler_single z f q hclass, ?_, ?_⟩
  · intro r hr hn hC
    rw [zoneAnswers_eq_flatten]
    refine List.mem_flatten.mpr ⟨contrib z f q r, List.mem_map_of_mem _ hr, ?_⟩
    rw [contrib_nonapex_cname z f q r hA hn hC hnon]
    exact List.mem_singleton_self r
  · rw [zoneAnswers_eq_flatten, zoneAnswers_eq_flatten,
      funext (contrib_oracle_indep z f g q hnon)]

/-- Witness for C8: the `www.abc.com.` A query against `abc.com` returns
the literal `www` CNAME, and the answer is the same under two different
flattener outcomes. -/
theorem c8_nonapex_cname_literal_witness :
    wwwCname ∈ zoneAnswers abcZone (fun _ => none) qWwwA ∧
    zoneAnswers abcZone (fun _ => none) qWwwA =
      zoneAnswers abcZone (fun _ => some []) qWwwA := by
  have h := c8_nonapex_cname_literal abcZone (fun _ => none) (fun _ => some [])
    qWwwA rfl rfl (by decide)
  exact ⟨h.2.1 wwwCname (by decide) rfl rfl, h.2.2⟩

/-! ### Claim C3 -/

/-- The content behind a listed object's key, when its fetch succeeded. -/
def contentOf (g : Getter) (k : ZoneFile) : String :=
  (g.getZone k.key).toOption.getD ""

theorem fetchFiles_ok (pfx : String) (lu : Int) (g : Getter) :
    ∀ (files : List ZoneFile) (zs : List (String × String)),
      fetchFiles pfx lu g files = .ok zs →
      zs = (files.filter (keepFile pfx lu)).map
        (fun k => (trimPfx k.key pfx, contentOf g k))
  | [], zs, h => by
    simp only [fetchFiles] at h
    cases h
    rfl
  | k :: rest, zs, h => by
    by_cases h1 : (k.key == pfx) = true
    · simp only [fetchFiles, h1, if_true] at h
      have := fetchFiles_ok pfx lu g rest zs h
      simp [List.filter_cons, keepFile, h1, this]
    · by_cases h2 : k.lastModified < lu - 60
      · simp only [fetchFiles, h1, if_false, h2, if_true] at h
        have := fetchFiles_ok pfx lu g rest zs h
        rw [this, List.filter_cons]
        have hk : keepFile pfx lu k = false := by
          simp [keepFile, h2]
        simp [hk]
      · rw [fetchFiles, if_neg (by simp_all), if_neg h2] at h
        cases hc : g.getZone k.key with
        | error e => rw [hc] at h; cases h
        | ok content =>
          rw [hc] at h
          cases hr : fetchFiles pfx lu g rest with
          | error e => rw [hr] at h; cases h
          | ok zs' =>
            rw [hr] at h
            cases h
            have := fetchFiles_ok pfx lu g rest zs' hr
            have hk : keepFile pfx lu k = true := by
              simp_all [keepFile]
            rw [List.filter_cons, hk]
            simp [this, contentOf, hc, Except.toOption]

/-- C3: when a reload cycle's fetch loop succeeds, the loaded mapping is
exactly, in listing order, the kept objects — those whose key differs from
the prefix marker and whose lastModified is not strictly before
`lastSyncTime` minus the 60-second skew — with their keys trimmed; an
object is dropped by the keep predicate iff its key is the prefix marker
or its lastModified is strictly below the skew boundary, and an object
exactly at the boundary is kept. -/
theorem c3_staleness_filter (pfx : String) (lu : Int) (g : Getter)
    (files : List ZoneFile) (zs : List (String × String))
    (h : fetchFiles pfx lu g files = .ok zs) :
    (zs = (files.filter (keepFile pfx lu)).map
      (fun k => (trimPfx k.key pfx, contentOf g k))) ∧
    (∀ k : ZoneFile, keepFile pfx lu k = false ↔
      (k.key = pfx ∨ k.lastModified < lu - 60)) ∧
    (∀ k : ZoneFile, k.lastModified = lu - 60 → k.key ≠ pfx →
      keepFile pfx lu k = true) := by
  refine ⟨fetchFiles_ok pfx lu g files zs h, ?_, ?_⟩
  · intro k
    simp [keepFile, Decidable.imp_iff_not_or]
  · intro k hb hk
    simp [keepFile, hk, hb]

/-- The listing used by the C3 witness: the prefix marker itself, an
object one second below the skew boundary, one exactly at the boundary,
and a fresh one (watermark 1000, boundary 940). -/
def c3files : List ZoneFile :=
  [⟨"zones/", 1000⟩, ⟨"zones/old.com", 939⟩, ⟨"zones/edge.com", 940⟩,
   ⟨"zones/new.com", 1000⟩]

/-- The getter used by the C3 witness: every fetch succeeds and returns
the object's key as its content. -/
def c3getter : Getter := ⟨.ok c3files, fun k => .ok k⟩

/-- Witness for C3: on the concrete listing, the loaded mapping is the
boundary object and the fresh object only, and the stale object is
excluded by the staleness disjunct. -/
theorem c3_staleness_filter_witness :
    fetchFiles "zones/" 1000 c3getter c3files =
      .ok [("edge.com", "zones/edge.com"), ("new.com", "zones/new.com")] ∧
    [("edge.com", "zones/edge.com"), ("new.com", "zones/new.com")] =
      (c3files.filter (keepFile "zones/" 1000)).map
        (fun k => (trimPfx k.key "zones/", contentOf c3getter k)) ∧
    keepFile "zones/" 1000 ⟨"zones/old.com", 939⟩ = false := by
  have hfetch : fetchFiles "zones/" 1000 c3getter c3files =
      .ok [("edge.com", "zones/edge.com"), ("new.com", "zones/new.com")] := by
    rfl
  have h := c3_staleness_filter "zones/" 1000 c3getter c3files
    [("edge.com", "zones/edge.com"), ("new.com", "zones/new.com")] hfetch
  exact ⟨hfetch, h.1, (h.2.1 ⟨"zones/old.com", 939⟩).mpr (Or.inr (by decide))⟩

/-! ### Claims C4 and C5 -/

theorem lookup_cons (a m : String) (w : Zone) (rest : Store) :
    List.lookup a ((m, w) :: rest) =
      if a = m then some w else List.lookup a rest := by
  by_cases h : a = m
  · simp [List.lookup, h]
  · have hb : (a == m) = false := beq_eq_false_iff_ne.mpr h
    simp [List.lookup, hb, h]

theorem lookup_upsert_self : ∀ (s : Store) (n : String) (z : Zone),
    List.lookup n (upsert s n z) = some z
  | [], n, z => by simp [upsert, lookup_cons]
  | (m, w) :: rest, n, z => by
    by_cases h : m = n
    · simp [upsert, h, lookup_cons]
    · rw [upsert, if_neg h, lookup_cons, if_neg (Ne.symm h)]
      exact lookup_upsert_self rest n z

theorem lookup_upsert_ne : ∀ (s : Store) (n a : String) (z : Zone), a ≠ n →
    List.lookup a (upsert s n z) = List.lookup a s
  | [], n, a, z, h => by simp [upsert, lookup_cons, h]
  | (m, w) :: rest, n, a, z, h => by
    by_cases hm : m = n
    · subst hm
      rw [upsert, if_pos rfl, lookup_cons, lookup_cons, if_neg h, if_neg h]
    · rw [upsert, if_neg hm, lookup_cons, lookup_cons]
      by_cases ham : a = m
      · simp [ham]
      · simp [ham, lookup_upsert_ne rest n a z h]

theorem loadZones_fatal (parse : ParseOracle) :
    ∀ (batch : List (String × String)) (store : Store) (e : String)
      (s' : Store),
      loadZones parse store batch = .fatal e s' →
      ∃ pre n f rest, batch = pre ++ (n, f) :: rest ∧
        (∀ p ∈ pre, (parse p.1 p.2).2 = none) ∧
        (parse n f).2 = some e ∧
        loadZones parse store pre = .ok s'
  | [], store, e, s', h => by simp [loadZones] at h
  | (n, f) :: rest, store, e, s', h => by
    cases hp : (parse n f).2 with
    | none =>
      simp only [loadZones, hp] at h
      obtain ⟨pre, n', f', rest', hb, hpre, hp', hok⟩ :=
        loadZones_fatal parse rest (upsert store n ⟨n, (parse n f).1⟩) e s' h
      refine ⟨(n, f) :: pre, n', f', rest', by rw [hb]; rfl, ?_, hp', ?_⟩
      · intro p hp2
        rcases List.mem_cons.mp hp2 with h0 | h0
        · subst h0; exact hp
        · exact hpre p h0
      · simp only [loadZones, hp]
        exact hok
    | some e2 =>
      simp only [loadZones, hp] at h
      cases h
      exact ⟨[], n, f, rest, rfl, by simp, hp, rfl⟩

theorem loadZones_ok_frame (parse : ParseOracle) :
    ∀ (batch : List (String × String)) (store s' : Store),
      loadZones parse store batch = .ok s' →
      ∀ a, a ∉ batch.map Prod.fst → List.lookup a s' = List.lookup a store
  | [], store, s', h, a, _ => by
    simp only [loadZones] at h
    cases h
    rfl
  | (n, f) :: rest, store, s', h, a, ha => by
    simp only [List.map_cons, List.mem_cons, not_or] at ha
    cases hp : (parse n f).2 with
    | some e => simp only [loadZones, hp] at h; cases h
    | none =>
      simp only [loadZones, hp] at h
      rw [loadZones_ok_frame parse rest _ s' h a ha.2,
        lookup_upsert_ne store n a _ ha.1]

theorem loadZones_ok_installed (parse : ParseOracle) :
    ∀ (batch : List (String × String)) (store s' : Store),
      loadZones parse store batch = .ok s' →
      (batch.map Prod.fst).Nodup →
      ∀ n f, (n, f) ∈ batch →
        (parse n f).2 = none ∧ List.lookup n s' = some ⟨n, (parse n f).1⟩
  | [], store, s', h, _, n, f, hm => by simp at hm
  | (n0, f0) :: rest, store, s', h, hnd, n, f, hm => by
    cases hp : (parse n0 f0).2 with
    | some e => simp only [loadZones, hp] at h; cases h
    | none =>
      simp only [loadZones, hp] at h
      simp only [List.map_cons, List.nodup_cons] at hnd
      rcases List.mem_cons.mp hm with h0 | h0
      · have hn : n = n0 := congrArg Prod.fst h0
        have hf : f = f0 := congrArg Prod.snd h0
        subst hn
        subst hf
        refine ⟨hp, ?_⟩
        rw [loadZones_ok_frame parse rest _ s' h n hnd.1, lookup_upsert_self]
      · exact loadZones_ok_installed parse rest _ s' h hnd.2 n f h0

/-- C4 (amended): a remote listing or fetch failure aborts the cycle with
the store untouched; a parse failure terminates the process
(`log.Fatalf`), and at that moment the store holds exactly the prior store
updated with the fully-parsed zones that preceded the failing zone in the
batch — the failing zone itself (and anything only partially parsed) is
never installed, but earlier zones of the same batch already are. -/
theorem c4_reload_failure (parse : ParseOracle) (pfx : String)
    (lu now : Int) (g : Getter) (store : Store) :
    (∀ e, getZones pfx lu now g = .error e →
      reloadCycle parse pfx lu now g store = .fatal e store) ∧
    (∀ batch e s', loadZones parse store batch = .fatal e s' →
      ∃ pre n f rest, batch = pre ++ (n, f) :: rest ∧
        (∀ p ∈ pre, (parse p.1 p.2).2 = none) ∧
        (parse n f).2 = some e ∧
        loadZones parse store pre = .ok s' ∧
        (∀ a, a ∉ pre.map Prod.fst →
          List.lookup a s' = List.lookup a store)) := by
  constructor
  · intro e he
    simp [reloadCycle, he]
  · intro batch e s' h
    obtain ⟨pre, n, f, rest, hb, hpre, hp, hok⟩ :=
      loadZones_fatal parse batch store e s' h
    exact ⟨pre, n, f, rest, hb, hpre, hp, hok,
      fun a ha => loadZones_ok_frame parse pre store s' hok a ha⟩

/-- The single A record of the `good.com` zone in the C4 example. -/
def goodRR : RR := ⟨⟨"good.com.", typeA, classINET, 300⟩, "127.0.0.9"⟩

/-- The parse oracle of the C4 example: `good.com` parses to one A record;
any other zone fails with a syntax error. -/
def c4parse : ParseOracle := fun n _ =>
  if n = "good.com" then ([goodRR], none) else ([], some "dns: bad zone")

/-- C4, counterexample: in a batch where `good.com` parses and `bad.com`
fails to parse, the reload terminates with `good.com` already newly
installed in the handler store, although the prior store (empty) held no
such zone — so a parse failure does leave another zone of the same batch
newly installed, contrary to the claim. -/
theorem c4_counterexample :
    loadZones c4parse [] [("good.com", "gtext"), ("bad.com", "btext")] =
      .fatal "dns: bad zone" [("good.com", ⟨"good.com", [goodRR]⟩)] ∧
    List.lookup "good.com"
        ([("good.com", ⟨"good.com", [goodRR]⟩)] : Store) =
      some ⟨"good.com", [goodRR]⟩ ∧
    List.lookup "good.com" ([] : Store) = none :=
  ⟨rfl, rfl, rfl⟩

/-- Witness for C4 (amended), at the counterexample batch. -/
theorem c4_reload_failure_witness :
    ∃ pre n f rest,
      [("good.com", "gtext"), ("bad.com", "btext")] = pre ++ (n, f) :: rest ∧
      (∀ p ∈ pre, (c4parse p.1 p.2).2 = none) ∧
      (c4parse n f).2 = some "dns: bad zone" ∧
      loadZones c4parse [] pre =
        .ok [("good.com", ⟨"good.com", [goodRR]⟩)] ∧
      (∀ a, a ∉ pre.map Prod.fst →
        List.lookup a [("good.com", ⟨"good.com", [goodRR]⟩)] =
          List.lookup a ([] : Store)) :=
  (c4_reload_failure c4parse "" 0 0 ⟨.error "unused", fun _ => .error "unused"⟩
    []).2 [("good.com", "gtext"), ("bad.com", "btext")] "dns: bad zone"
    [("good.com", ⟨"good.com", [goodRR]⟩)] rfl

/-- C5: when every zone of a batch parses cleanly (distinct names, as
produced by the Go map), the merge is a partial update: each batch zone is
installed under its name with exactly its parsed records, replacing any
prior zone of that name, and every store entry not named in the batch is
unchanged. -/
theorem c5_merge_partial_update (parse : ParseOracle) (store : Store)
    (batch : List (String × String)) (s' : Store)
    (hnodup : (batch.map Prod.fst).Nodup)
    (h : loadZones parse store batch = .ok s') :
    (∀ n f, (n, f) ∈ batch →
      List.lookup n s' = some ⟨n, (parse n f).1⟩) ∧
    (∀ n, n ∉ batch.map Prod.fst →
      List.lookup n s' = List.lookup n store) :=
  ⟨fun n f hm =>
      (loadZones_ok_installed parse batch store s' h hnodup n f hm).2,
   fun n hn => loadZones_ok_frame parse batch store s' h n hn⟩

/-- The parse oracle of the C5 witness: every zone parses to a single apex
A record. -/
def c5parse : ParseOracle := fun n _ =>
  ([⟨⟨n ++ ".", typeA, classINET, 300⟩, "10.0.0.7"⟩], none)

/-- The prior store of the C5 witness: an old `abc.com` zone and an
untouched `keep.com` zone. -/
def c5store : Store := [("keep.com", ⟨"keep.com", []⟩), ("abc.com", ⟨"abc.com", []⟩)]

/-- The store after the C5 witness reload. -/
def c5after : Store :=
  [("keep.com", ⟨"keep.com", []⟩),
   ("abc.com", ⟨"abc.com", [⟨⟨"abc.com.", typeA, classINET, 300⟩, "10.0.0.7"⟩]⟩),
   ("def.com", ⟨"def.com", [⟨⟨"def.com.", typeA, classINET, 300⟩, "10.0.0.7"⟩]⟩)]

/-- Witness for C5: reloading `abc.com` and `def.com` over the prior store
replaces `abc.com`, adds `def.com`, and leaves `keep.com` untouched. -/
theorem c5_merge_partial_update_witness :
    List.lookup "abc.com" c5after =
      some ⟨"abc.com", [⟨⟨"abc.com.", typeA, classINET, 300⟩, "10.0.0.7"⟩]⟩ ∧
    List.lookup "keep.com" c5after = List.lookup "keep.com" c5store := by
  have h := c5_merge_partial_update c5parse c5store
    [("abc.com", "atext"), ("def.com", "dtext")] c5after (by decide) rfl
  exact ⟨h.1 "abc.com" "atext" (by decide), h.2 "keep.com" (by decide)⟩

/-! ### Claims C6 and C7 -/

/-- C6: evaluation of the flattener at its failure inputs.  An unreachable
upstream is a returned error, as the claim says; but a non-success
response code (here ServFail, rcode 2) does not return the intended
resolution error — building its message dereferences the nil `err` and
panics, crashing the serving process; and an empty answer section under a
success code is not an error at all, merely an empty success. -/
theorem c6_flatten_failure_modes :
    flattenCNAME (.error "dial udp 8.8.8.8:53: connection refused")
        flatCname =
      .err "dial udp 8.8.8.8:53: connection refused" ∧
    flattenCNAME (.ok ⟨2, []⟩) flatCname =
      .panic "runtime error: invalid memory address or nil pointer dereference" ∧
    flattenCNAME (.ok ⟨rcodeSuccess, []⟩) flatCname = .ok [] :=
  ⟨rfl, rfl, rfl⟩

theorem beq_nat_decide (a b : Nat) : (a == b) = decide (a = b) := by
  by_cases h : a = b
  · subst h
    simp
  · simp [h]

/-- C7: on a successful upstream exchange (success response code), the
flattener returns one synthesized record per A record of the upstream
answer, in order: owner name = the CNAME record's own name (the queried
apex), type A, class INET, TTL exactly 300, and rdata = the upstream
record's address; everything else about the upstream records is discarded,
and non-A upstream answers contribute nothing. -/
theorem c7_flatten_synthesis (resp : UpstreamMsg) (cname : RR)
    (out : List RR) (hrc : resp.rcode = rcodeSuccess)
    (h : flattenCNAME (.ok resp) cname = .ok out) :
    (∀ o ∈ out, o.hdr = ⟨cname.hdr.name, typeA, classINET, 300⟩) ∧
    out.map RR.rdata =
      (resp.answer.filter (fun a => a.hdr.rrtype == typeA)).map RR.rdata ∧
    out.length =
      (resp.answer.filter (fun a => a.hdr.rrtype == typeA)).length := by
  have hout : out = (resp.answer.filter
      (fun a => a.hdr.rrtype == typeA)).map
      (fun a => ⟨⟨cname.hdr.name, typeA, classINET, 300⟩, a.rdata⟩) := by
    simp only [flattenCNAME, hrc] at h
    rw [if_neg (by decide)] at h
    injection h with h2
    rw [← h2, filterMap_ite]
    exact congrArg _
      (List.filter_congr
        (fun a _ => (beq_nat_decide a.hdr.rrtype typeA).symm)).symm
  subst hout
  refine ⟨?_, ?_, by simp⟩
  · intro o ho
    obtain ⟨a, _, rfl⟩ := List.mem_map.mp ho
    rfl
  · rw [List.map_map]
    rfl

/-- The upstream reply of the C7 witness: an A record `127.0.0.2` for
`def.com.` plus a TXT record that must contribute nothing. -/
def c7resp : UpstreamMsg :=
  ⟨0, [⟨⟨"def.com.", typeA, classINET, 60⟩, "127.0.0.2"⟩,
       ⟨⟨"def.com.", typeTXT, classINET, 60⟩, "ignored"⟩]⟩

/-- Witness for C7: flattening the `flat.com.` apex CNAME against the
concrete upstream reply synthesizes exactly one A record owned by
`flat.com.`, TTL 300, address `127.0.0.2`. -/
theorem c7_flatten_synthesis_witness :
    flattenCNAME (.ok c7resp) flatCname =
      .ok [⟨⟨"flat.com.", typeA, classINET, 300⟩, "127.0.0.2"⟩] ∧
    [(⟨⟨"flat.com.", typeA, classINET, 300⟩, "127.0.0.2"⟩ : RR)].map
        RR.rdata =
      (c7resp.answer.filter (fun a => a.hdr.rrtype == typeA)).map RR.rdata := by
  have h := c7_flatten_synthesis c7resp flatCname
    [⟨⟨"flat.com.", typeA, classINET, 300⟩, "127.0.0.2"⟩] rfl rfl
  exact ⟨rfl, h.2.1⟩

/-! ### Claim C9 -/

/-- The parse oracle of the C9 examples: everything parses, to no
records. -/
def c9parse : ParseOracle := fun _ _ => ([], none)

/-- The fetch function of the C9 counterexample; never consulted, since
the only listed object is the prefix marker itself. -/
def c9fetch : String → Except String String := fun _ => .error "unused"

/-- C9, counterexample: a remote catalog holding only the prefix-marker
object `zones/` lists successfully (it is non-empty), the marker filter
then drops it, the initial load returns zero zones without error, and the
process starts serving with an empty store instead of failing to start. -/
theorem c9_counterexample :
    getZones "zones/" 0 500 ⟨s3ListZones [⟨"zones/", 100⟩], c9fetch⟩ =
      .ok ([], 500) ∧
    startup c9parse "zones/" 500 [⟨"zones/", 100⟩] c9fetch = .serving [] :=
  ⟨rfl, rfl⟩

/-- C9 (amended): the process fails to start when the remote catalog is
empty, and whenever it does start serving, the listing was non-empty and
every fetch and parse succeeded, the store being exactly the loaded
result — which may hold zero zones: the only "at least one zone" guard
lives in the S3 listing, not on the filtered, loaded result. -/
theorem c9_startup_behavior (parse : ParseOracle) (pfx : String) (now : Int)
    (objects : List ZoneFile)
    (fetchContent : String → Except String String) :
    (objects = [] →
      startup parse pfx now objects fetchContent = .fatal "No zones found") ∧
    (∀ s, startup parse pfx now objects fetchContent = .serving s →
      objects ≠ [] ∧
      ∃ zs m, getZones pfx 0 now ⟨s3ListZones objects, fetchContent⟩ =
          .ok (zs, m) ∧ loadZones parse [] zs = .ok s) := by
  constructor
  · intro h
    subst h
    rfl
  · intro s hs
    cases hg : getZones pfx 0 now ⟨s3ListZones objects, fetchContent⟩ with
    | error e =>
      unfold startup at hs
      rw [hg] at hs
      exact absurd hs (by simp)
    | ok p =>
      obtain ⟨zs, m⟩ := p
      unfold startup at hs
      rw [hg] at hs
      refine ⟨?_, zs, m, rfl, ?_⟩
      · intro hobj
        subst hobj
        simp [getZones, s3ListZones] at hg
      · have hs2 : (match loadZones parse [] zs with
            | LoadResult.fatal e _ => StartupResult.fatal e
            | LoadResult.ok store => StartupResult.serving store) =
            StartupResult.serving s := hs
        cases hl : loadZones parse [] zs with
        | fatal e st =>
          rw [hl] at hs2
          have hs3 : StartupResult.fatal e = StartupResult.serving s := hs2
          cases hs3
        | ok store =>
          rw [hl] at hs2
          have hs3 : StartupResult.serving store = StartupResult.serving s :=
            hs2
          injection hs3 with h3
          exact congrArg LoadResult.ok h3

/-- Witness for C9 (amended): an empty catalog fails startup with the S3
listing's error. -/
theorem c9_startup_behavior_witness :
    startup c9parse "zones/" 500 [] c9fetch = .fatal "No zones found" :=
  (c9_startup_behavior c9parse "zones/" 500 [] c9fetch).1 rfl

/-! ### Claim C10 -/

/-- C10, counterexample: a message carrying zero questions dispatched to
the "." handler hits the unchecked `req.Question[0]` out of bounds, so no
reply is written — the handler panics instead, contrary to the claim that
every dispatched message, including zero-question ones, gets a reply
without out-of-bounds access. -/
theorem c10_counterexample : versionHandler [] = none := rfl

/-- C10 (amended): for every message carrying at least one question, the
"." handler writes a reply without out-of-bounds access: when the first
question is a "." TXT question, the answer is the running version string
and Extra carries the fixed product identifier; any other first question
receives an empty reply.  (Zero-question messages remain an out-of-bounds
access.) -/
theorem c10_version_handler (q : Question) (rest : List Question) :
    (versionHandler (q :: rest)).isSome = true ∧
    (q.qname = "." → q.qtype = typeTXT →
      versionHandler (q :: rest) =
        some ([⟨⟨".", typeTXT, classINET, 0⟩, "v" ++ version⟩],
              [⟨⟨".", typeTXT, classINET, 0⟩, "NedDNS"⟩])) ∧
    ((q.qname = "." ∧ q.qtype = typeTXT → False) →
      versionHandler (q :: rest) = some ([], [])) := by
  refine ⟨?_, ?_, ?_⟩
  · by_cases h : q.qname = "." ∧ q.qtype = typeTXT <;>
      simp [versionHandler, h]
  · intro h1 h2
    simp [versionHandler, h1, h2]
  · intro h
    simp only [versionHandler]
    rw [if_neg h]

/-- Witness for C10 (amended): the "." TXT probe is answered with the
version and product identifier. -/
theorem c10_version_handler_witness :
    versionHandler [⟨".", typeTXT, classINET⟩] =
      some ([⟨⟨".", typeTXT, classINET, 0⟩, "v" ++ version⟩],
            [⟨⟨".", typeTXT, classINET, 0⟩, "NedDNS"⟩]) :=
  (c10_version_handler ⟨".", typeTXT, classINET⟩ []).2.1 rfl rfl

end NedDNS
